import Mathlib

/-!
Verification of the helper repository's free-text parsers, test-case
generator and knowledge-base relationship builder.  The Python sources
(`reverse_engineer.py`, `test_case_generator.py`, `knowledge_base_builder.py`)
are shallowly embedded: Python `str` values become `String`, dictionaries
with a fixed key set become structures (a key that can be absent becomes an
`Option` field), the line loops become folds over the list of lines, and the
LLM client becomes an explicit function argument (`Option` when the source
checks `self.llm_client` for `None`; an `Except`-returning function where the
source catches exceptions from `invoke`).
-/

namespace Helper

/-! ## Python string primitives -/

/-- Characters Python's `str.strip()` removes. -/
def pySpace (c : Char) : Bool :=
  c = ' ' || c = '\t' || c = '\n' || c = '\r' || Char.ofNat 11 = c || Char.ofNat 12 = c

/-- Python `s.strip()` (for the ASCII whitespace that occurs in the inputs). -/
def pyStrip (s : String) : String :=
  String.mk (((s.data.dropWhile pySpace).reverse.dropWhile pySpace).reverse)

/-- Python `s.upper()` (ASCII). -/
def pyUpper (s : String) : String :=
  String.mk (s.data.map Char.toUpper)

/-- Python `s.lower()` (ASCII). -/
def pyLower (s : String) : String :=
  String.mk (s.data.map Char.toLower)

/-- The first list is a prefix of the second (decidable, by characters). -/
def leadsWith : List Char → List Char → Bool
  | [], _ => true
  | _ :: _, [] => false
  | p :: ps, c :: cs => p = c && leadsWith ps cs

/-- Python `s.startswith(pre)`. -/
def strStarts (s pre : String) : Bool :=
  leadsWith pre.data s.data

/-- The second list occurs contiguously inside the first. -/
def listContains : List Char → List Char → Bool
  | [], nee => nee.isEmpty
  | c :: t, nee => leadsWith nee (c :: t) || listContains t nee

/-- Python `needle in hay` for strings. -/
def inStr (needle hay : String) : Bool :=
  listContains hay.data needle.data

/-- Python `s[:n]` (slice of the first `n` characters). -/
def pyTake (n : Nat) (s : String) : String :=
  String.mk (s.data.take n)

/-- Python `s.isupper()`: at least one cased character and no lowercase one
(ASCII: cased = alphabetic). -/
def pyIsUpper (s : String) : Bool :=
  s.data.any (fun c => c.isAlpha) && s.data.all (fun c => !(c.isLower))

/-- Python `text.split('\n')`, structurally (kernel-reducible): splitting on
a single newline character. -/
def splitNLAux : List Char → List Char → List String
  | [], acc => [String.mk acc.reverse]
  | c :: cs, acc =>
    if c = '\n' then String.mk acc.reverse :: splitNLAux cs []
    else splitNLAux cs (c :: acc)

/-- Python `text.split('\n')`. -/
def splitNL (s : String) : List String :=
  splitNLAux s.data []

/-- Python `'\n'.join(parts)`. -/
def joinNL (parts : List String) : String :=
  String.intercalate "\n" parts

/-- Search for the case-insensitive letter pattern `pat` (given in upper case)
followed by at least one digit: the embedding of `re.search(r'PAT(\d+)', line,
re.IGNORECASE)`.  `ciMatch pat s` returns the rest of `s` after a match of
`pat` at its start. -/
def ciMatch : List Char → List Char → Option (List Char)
  | [], s => some s
  | _ :: _, [] => none
  | p :: ps, c :: cs => if c.toUpper = p then ciMatch ps cs else none

/-- The leftmost match of `pat` + digits in `s`; the result is the canonical
id string `pat ++ digits` (the source rebuilds the id as `f"FR{digits}"`,
`f"NFR{digits}"`, `f"TC{digits}"`). -/
def searchId (pat : List Char) : List Char → Option String
  | [] => none
  | c :: cs =>
    match ciMatch pat (c :: cs) with
    | some rest =>
      let digits := rest.takeWhile Char.isDigit
      if digits.isEmpty then searchId pat cs else some (String.mk (pat ++ digits))
    | none => searchId pat cs

/-! ## reverse_engineer.py: `_parse_requirements_response` -/

/-- One requirement record, as built by `_parse_requirements_response`. -/
structure ReqRecord where
  id : String
  title : String
  description : String
  content : String
deriving DecidableEq, Repr

/-- The `current_section` tag of the requirement parser. -/
inductive ReqSection where
  | FR
  | NFR
deriving DecidableEq, Repr

/-- The loop state of `_parse_requirements_response`. -/
structure ReqState where
  frs : List ReqRecord
  nfrs : List ReqRecord
  current_section : Option ReqSection
  current_req : Option ReqRecord
deriving DecidableEq, Repr

/-- The initial state of the requirement parser. -/
def reqInit : ReqState :=
  ⟨[], [], none, none⟩

/-- One iteration of the `for line in lines` loop of
`_parse_requirements_response`. -/
def reqStep (st : ReqState) (rawLine : String) : ReqState :=
  let line := pyStrip rawLine
  if line = "" then st
  else if inStr "FUNCTIONAL REQUIREMENT" (pyUpper line) || strStarts (pyUpper line) "FR" then
    let st1 := { st with current_section := some ReqSection.FR }
    match searchId ['F', 'R'] line.data with
    | some fr_id =>
      { st1 with
        frs := st1.frs ++ (match st1.current_req with | some r => [r] | none => []),
        current_req := some ⟨fr_id, line, "", ""⟩ }
    | none => st1
  else if inStr "NON-FUNCTIONAL REQUIREMENT" (pyUpper line) || strStarts (pyUpper line) "NFR" then
    let st1 := { st with current_section := some ReqSection.NFR }
    match searchId ['N', 'F', 'R'] line.data with
    | some nfr_id =>
      { st1 with
        nfrs := st1.nfrs ++ (match st1.current_req with | some r => [r] | none => []),
        current_req := some ⟨nfr_id, line, "", ""⟩ }
    | none => st1
  else
    match st.current_req with
    | some req =>
      if req.description ≠ "" then
        { st with current_req := some { req with content := req.content ++ "\n" ++ line } }
      else
        { st with current_req := some { req with description := line, content := line } }
    | none => st

/-- The close of the last open record after the loop (`# Add last
requirement`): into the FR list when `current_section == 'FR'`, otherwise
into the NFR list. -/
def reqFinish (st : ReqState) : List ReqRecord × List ReqRecord :=
  match st.current_req with
  | some r =>
    if st.current_section = some ReqSection.FR then (st.frs ++ [r], st.nfrs)
    else (st.frs, st.nfrs ++ [r])
  | none => (st.frs, st.nfrs)

/-- The result shape of `_parse_requirements_response`. -/
structure RequirementsDoc where
  functional_requirements : List ReqRecord
  non_functional_requirements : List ReqRecord
  raw_text : String
deriving DecidableEq, Repr

/-- Embedding of `_parse_requirements_response`: split on newlines, fold the loop, close
the last record, and fall back to one synthetic FR when nothing was parsed. -/
def parse_requirements_response (requirements_text : String) : RequirementsDoc :=
  let st := (splitNL requirements_text).foldl reqStep reqInit
  let p := reqFinish st
  if p.1 = [] ∧ p.2 = [] then
    ⟨[⟨"FR1", "Functional Requirement 1", pyTake 200 requirements_text, requirements_text⟩],
     [], requirements_text⟩
  else
    ⟨p.1, p.2, requirements_text⟩

/-! ## reverse_engineer.py: `_parse_design_response` -/

/-- One design section (`title`/`description`/`content`). -/
structure DesignSection where
  title : String
  description : String
  content : String
deriving DecidableEq, Repr

/-- The loop state of `_parse_design_response`.  The source's
`current_section = None` and `current_section = ''` behave alike (both are
falsy at every use), so the state keeps a plain string, initially empty. -/
structure DesignState where
  sections : List DesignSection
  current_section : String
  current_content : List String
deriving DecidableEq, Repr

/-- The header test of `_parse_design_response`: the line starts with `#`, or
is fully upper-case and under 100 characters. -/
def design_is_header (line : String) : Bool :=
  strStarts line "#" || (pyIsUpper line && decide (line.length < 100))

/-- Closing the currently accumulated section, used both at a new header and
after the loop: appended only when the current title is truthy. -/
def designClose (st : DesignState) : List DesignSection :=
  st.sections ++
    (if st.current_section ≠ "" then
      [⟨st.current_section, joinNL st.current_content, joinNL st.current_content⟩]
     else [])

/-- One iteration of the `for line in lines` loop of `_parse_design_response`. -/
def designStep (st : DesignState) (rawLine : String) : DesignState :=
  let line := pyStrip rawLine
  if line = "" then st
  else if design_is_header line then
    { sections := designClose st,
      current_section := pyStrip (String.mk (line.data.dropWhile (fun c => c = '#'))),
      current_content := [] }
  else
    { st with current_content := st.current_content ++ [line] }

/-- The result shape of `_parse_design_response`. -/
structure DesignDoc where
  sections : List DesignSection
  raw_text : String
deriving DecidableEq, Repr

/-- Embedding of `_parse_design_response`: fold the loop, close the last section, and wrap
the whole text as one synthetic "Technical Design" section when no section
was ever produced. -/
def parse_design_response (design_text : String) : DesignDoc :=
  let st := (splitNL design_text).foldl designStep ⟨[], "", []⟩
  let sections := designClose st
  let sections :=
    if sections = [] then [⟨"Technical Design", pyTake 500 design_text, design_text⟩]
    else sections
  ⟨sections, design_text⟩

/-! ## test_case_generator.py: `_parse_test_cases` -/

/-- One test-case record, as built by `_parse_test_cases`. -/
structure TestCase where
  id : String
  component : String
  name : String
  description : String
  input_data : String
  expected_output : String
  test_steps : List String
  content : String
deriving DecidableEq, Repr

/-- The `current_field` cursor of the test-case parser. -/
inductive TCField where
  | name
  | description
  | input
  | expected
  | steps
deriving DecidableEq, Repr

/-- The loop state of `_parse_test_cases`.  `stopped` records that the
source's `break` has run (the remaining lines are not processed). -/
structure TCState where
  tests : List TestCase
  current_test : Option TestCase
  current_field : Option TCField
  stopped : Bool
deriving DecidableEq, Repr

/-- The initial state of the test-case parser. -/
def tcInit : TCState :=
  ⟨[], none, none, false⟩

/-- Python `line.split(':', 1)[1].strip()` (only reached when the line
contains a colon). -/
def afterColon (line : String) : String :=
  pyStrip (String.mk ((line.data.dropWhile (fun c => c ≠ ':')).drop 1))

/-- Python `line.lstrip('- ').lstrip('0123456789. ')`. -/
def stripBullet (line : String) : String :=
  String.mk ((line.data.dropWhile (fun c => c = '-' || c = ' ')).dropWhile
    (fun c => c.isDigit || c = '.' || c = ' '))

/-- The first character of the (non-empty) line is a digit:
Python `line[0].isdigit()`. -/
def headIsDigit (line : String) : Bool :=
  match line.data with
  | c :: _ => c.isDigit
  | [] => false

/-- The body of the loop of `_parse_test_cases` for a non-header line while a
record is open (`elif current_test:`). -/
def tcBody (st : TCState) (cur : TestCase) (line : String) : TCState :=
  if inStr "name" (pyLower line) && inStr ":" line then
    { st with current_test := some { cur with name := afterColon line },
              current_field := some TCField.name }
  else if inStr "description" (pyLower line) && inStr ":" line then
    { st with current_test := some { cur with description := afterColon line },
              current_field := some TCField.description }
  else if inStr "input" (pyLower line) && inStr ":" line then
    { st with current_test := some { cur with input_data := afterColon line },
              current_field := some TCField.input }
  else if inStr "expected" (pyLower line) && inStr ":" line then
    { st with current_test := some { cur with expected_output := afterColon line },
              current_field := some TCField.expected }
  else if inStr "step" (pyLower line) then
    { st with current_field := some TCField.steps }
  else if st.current_field = some TCField.steps && (strStarts line "-" || headIsDigit line) then
    { st with current_test := some { cur with test_steps := cur.test_steps ++ [stripBullet line] } }
  else
    match st.current_field with
    | some TCField.description =>
      { st with current_test := some { cur with description := cur.description ++ " " ++ line } }
    | some TCField.input =>
      { st with current_test := some { cur with input_data := cur.input_data ++ " " ++ line } }
    | some TCField.expected =>
      { st with current_test := some { cur with expected_output := cur.expected_output ++ " " ++ line } }
    | some TCField.name => st
    | some TCField.steps => st
    | none =>
      { st with current_test := some { cur with content := cur.content ++ "\n" ++ line } }

/-- One (stripped, non-empty) line of `_parse_test_cases`: a `TC<digits>`
match opens a new record (or stops at the cap), any other line feeds the open
record. -/
def tcLine (max_tests : Nat) (component_name : String) (st : TCState) (line : String) : TCState :=
  match searchId ['T', 'C'] line.data with
  | some tc_id =>
    if max_tests ≤ st.tests.length then { st with stopped := true }
    else
      { tests := st.tests ++ (match st.current_test with | some t => [t] | none => []),
        current_test := some ⟨tc_id, component_name, "", "", "", "", [], line⟩,
        current_field := none,
        stopped := false }
  | none =>
    match st.current_test with
    | some cur => tcBody st cur line
    | none => st

/-- One iteration of the `for line in lines` loop of `_parse_test_cases`
(a no-op once `break` has run). -/
def tcStep (max_tests : Nat) (component_name : String) (st : TCState) (rawLine : String) : TCState :=
  if st.stopped then st
  else if pyStrip rawLine = "" then st
  else tcLine max_tests component_name st (pyStrip rawLine)

/-- The tail of `_parse_test_cases`: close the last open record when the cap
has not been reached, truncate to the cap, and fall back to one synthetic
record when the list is empty. -/
def tcFinish (max_tests : Nat) (component_name : String) (test_cases_text : String)
    (st : TCState) : List TestCase :=
  let tests :=
    match st.current_test with
    | some t => if st.tests.length < max_tests then st.tests ++ [t] else st.tests
    | none => st.tests
  let tests := tests.take max_tests
  if tests = [] then
    [⟨"TC1", component_name, "Test " ++ component_name, pyTake 200 test_cases_text,
      "N/A", "N/A", [], test_cases_text⟩]
  else tests

/-- Embedding of `_parse_test_cases` (the caller always passes `max_tests` explicitly). -/
def parse_test_cases (test_cases_text : String) (component_name : String)
    (max_tests : Nat) : List TestCase :=
  tcFinish max_tests component_name test_cases_text
    ((splitNL test_cases_text).foldl (tcStep max_tests component_name) tcInit)

/-- The `TC<digits>` ids of the header lines of a test-case-mode input, in
input order: the id of every line on which `re.search(r'TC(\d+)', ...)`
matches. -/
def tcHeaderIds (text : String) : List String :=
  (splitNL text).filterMap (fun l => searchId ['T', 'C'] (pyStrip l).data)

/-- The invariant the test-case parser state satisfies after consuming lines
whose header ids are `hs` (for a cap of at least 1): below the cap the parsed
records are the headers but the last, which is the open record; past the cap
the parser is stopped with exactly the first `M` headers parsed. -/
def tcInv (M : Nat) (st : TCState) (hs : List String) : Prop :=
  if hs.length ≤ M + 1 then
    st.stopped = false ∧
    st.tests.map (fun t => t.id) = hs.take (hs.length - 1) ∧
    st.current_test.map (fun t => t.id) = hs[hs.length - 1]?
  else
    st.stopped = true ∧
    st.tests.map (fun t => t.id) = hs.take M ∧
    st.current_test.map (fun t => t.id) = hs[M]?

/-! ## test_case_generator.py: `generate_test_cases` -/

/-- The configured limits consumed by the generator (`core.settings`). -/
structure TGSettings where
  MAX_TOTAL_TEST_CASES : Nat
  MAX_TEST_CASES_PER_FUNCTION : Nat
  MAX_TEST_CASES_PER_CLASS : Nat
deriving DecidableEq, Repr

/-- One entry of `code_info['functions']`: each field is read with
`func.get(key, default)`, so an absent key is `none`. -/
structure FuncInfo where
  name : Option String
  signature : Option String
  code : Option String
  docstring : Option String
deriving DecidableEq, Repr

/-- One entry of `code_info['classes']` (`methods` only contributes names). -/
structure ClassInfo where
  name : Option String
  code : Option String
  docstring : Option String
  methods : List FuncInfo
deriving DecidableEq, Repr

/-- One value of the `parsed_code` mapping. -/
structure CodeInfo where
  functions : List FuncInfo
  classes : List ClassInfo
deriving DecidableEq, Repr

/-- The prompt of `_generate_function_test_cases`. -/
def function_prompt (S : TGSettings) (func : FuncInfo) : String :=
  let m := Nat.repr S.MAX_TEST_CASES_PER_FUNCTION
  "Generate test cases for the following function. Generate EXACTLY " ++ m
    ++ " test cases (no more, no less).\n\n"
    ++ "Function Name: " ++ func.name.getD "unknown" ++ "\n"
    ++ "Signature: " ++ func.signature.getD "" ++ "\n"
    ++ "Docstring: " ++ func.docstring.getD "" ++ "\n"
    ++ "Code:\n" ++ pyTake 1000 (func.code.getD "")
    ++ "  # Limited to first 1000 chars\n\n"
    ++ "Generate EXACTLY " ++ m ++ " test cases covering the most important scenarios:\n"
    ++ "1. Primary happy path scenario (most common use case)\n"
    ++ "2. One edge case or boundary condition\n"
    ++ "3. One error handling scenario (if applicable)\n\n"
    ++ "For each test case, provide:\n"
    ++ "- Test case ID (TC1, TC2, TC3, etc.)\n"
    ++ "- Test case name\n"
    ++ "- Description\n"
    ++ "- Input data\n"
    ++ "- Expected output\n"
    ++ "- Test steps\n\n"
    ++ "IMPORTANT: Generate exactly " ++ m
    ++ " test cases. Do not generate more than " ++ m ++ " test cases."

/-- The prompt of `_generate_class_test_cases`. -/
def class_prompt (S : TGSettings) (cls : ClassInfo) : String :=
  let m := Nat.repr S.MAX_TEST_CASES_PER_CLASS
  "Generate test cases for the following class. Generate EXACTLY " ++ m
    ++ " test cases (no more, no less).\n\n"
    ++ "Class Name: " ++ cls.name.getD "unknown" ++ "\n"
    ++ "Docstring: " ++ cls.docstring.getD "" ++ "\n"
    ++ "Methods:\n"
    ++ joinNL (cls.methods.map (fun mth => "  - " ++ mth.name.getD "unknown")) ++ "\n\n"
    ++ "Code:\n" ++ pyTake 1500 (cls.code.getD "")
    ++ "  # Limited to first 1500 chars\n\n"
    ++ "Generate EXACTLY " ++ m ++ " test cases covering the most important scenarios:\n"
    ++ "1. Class instantiation (if applicable)\n"
    ++ "2. Key method behaviors (focus on most important methods)\n"
    ++ "3. One error handling scenario (if applicable)\n\n"
    ++ "For each test case, provide:\n"
    ++ "- Test case ID (TC1, TC2, TC3, etc.)\n"
    ++ "- Test case name\n"
    ++ "- Description\n"
    ++ "- Input data\n"
    ++ "- Expected output\n"
    ++ "- Test steps\n\n"
    ++ "IMPORTANT: Generate exactly " ++ m
    ++ " test cases. Do not generate more than " ++ m ++ " test cases."

/-- The fixed text substituted for the response when `self.llm_client` is
`None`. -/
def noClientText : String :=
  "[LLM not available - Test case generation requires AWS Bedrock credentials]"

/-- Embedding of `_generate_function_test_cases`: prompt, invoke (or the fixed fallback
text), parse with the per-function cap, truncate again. -/
def generate_function_test_cases (S : TGSettings) (llm : Option (String → String))
    (func : FuncInfo) (design_doc : DesignDoc) : List TestCase :=
  let text :=
    match llm with
    | none => noClientText
    | some invoke => invoke (function_prompt S func)
  (parse_test_cases text (func.name.getD "unknown") S.MAX_TEST_CASES_PER_FUNCTION).take
    S.MAX_TEST_CASES_PER_FUNCTION

/-- Embedding of `_generate_class_test_cases`: as for functions, with the per-class cap. -/
def generate_class_test_cases (S : TGSettings) (llm : Option (String → String))
    (cls : ClassInfo) (design_doc : DesignDoc) : List TestCase :=
  let text :=
    match llm with
    | none => noClientText
    | some invoke => invoke (class_prompt S cls)
  (parse_test_cases text (cls.name.getD "unknown") S.MAX_TEST_CASES_PER_CLASS).take
    S.MAX_TEST_CASES_PER_CLASS

/-- The `for func in code_info.get('functions', [])` loop of
`generate_test_cases`: returns the collected test cases of this file's
functions and the updated running total (the `break` stops the loop). -/
def gen_func_loop (S : TGSettings) (llm : Option (String → String)) (design_doc : DesignDoc) :
    List FuncInfo → Nat → List TestCase × Nat
  | [], total => ([], total)
  | func :: fs, total =>
    if S.MAX_TOTAL_TEST_CASES ≤ total then ([], total)
    else
      let t := (generate_function_test_cases S llm func design_doc).take
        S.MAX_TEST_CASES_PER_FUNCTION
      let r := gen_func_loop S llm design_doc fs (total + t.length)
      (t ++ r.1, r.2)

/-- The `for cls in code_info.get('classes', [])` loop of
`generate_test_cases`. -/
def gen_class_loop (S : TGSettings) (llm : Option (String → String)) (design_doc : DesignDoc) :
    List ClassInfo → Nat → List TestCase × Nat
  | [], total => ([], total)
  | cls :: cs, total =>
    if S.MAX_TOTAL_TEST_CASES ≤ total then ([], total)
    else
      let t := (generate_class_test_cases S llm cls design_doc).take
        S.MAX_TEST_CASES_PER_CLASS
      let r := gen_class_loop S llm design_doc cs (total + t.length)
      (t ++ r.1, r.2)

/-- The `for file_path, code_info in parsed_code.items()` loop of
`generate_test_cases`: after the function loop a reached cap `break`s before
the file's entry is stored; after the class loop the entry is stored (when
non-empty) and only then the cap `break`s. -/
def gen_files (S : TGSettings) (llm : Option (String → String)) (design_doc : DesignDoc) :
    List (String × CodeInfo) → Nat → List (String × List TestCase)
  | [], _ => []
  | (file_path, code_info) :: rest, total =>
    let p1 := gen_func_loop S llm design_doc code_info.functions total
    if S.MAX_TOTAL_TEST_CASES ≤ p1.2 then []
    else
      let p2 := gen_class_loop S llm design_doc code_info.classes p1.2
      let entry :=
        if p1.1 ++ p2.1 = [] then [] else [(file_path, p1.1 ++ p2.1)]
      if S.MAX_TOTAL_TEST_CASES ≤ p2.2 then entry
      else entry ++ gen_files S llm design_doc rest p2.2

/-- Embedding of `generate_test_cases`: the whole run, starting from a zero total. -/
def generate_test_cases (S : TGSettings) (llm : Option (String → String))
    (parsed_code : List (String × CodeInfo)) (design_doc : DesignDoc) :
    List (String × List TestCase) :=
  gen_files S llm design_doc parsed_code 0

/-- The total number of test cases across all files of the returned mapping. -/
def mappingTotal (m : List (String × List TestCase)) : Nat :=
  (m.map (fun p => p.2.length)).sum

/-! ## knowledge_base_builder.py: sections and relationships -/

/-- An FR section as built by `_build_fr_sections` (every key present). -/
structure FRSection where
  id : String
  fr_id : String
  title : String
  description : String
  content : String
  priority : String
  acceptance_criteria : String
deriving DecidableEq, Repr

/-- An NFR section as built by `_build_nfr_sections`. -/
structure NFRSection where
  id : String
  nfr_id : String
  title : String
  description : String
  content : String
  category : String
  acceptance_criteria : String
deriving DecidableEq, Repr

/-- A design section as built by `_build_design_sections`. -/
structure DesignKBSection where
  id : String
  des_id : String
  title : String
  description : String
  content : String
deriving DecidableEq, Repr

/-- A code section as built by `_build_code_sections`: `type` is `"file"`,
`"function"` or `"class"`; the `name` and `signature` keys exist only on some
variants, so they are `Option`. -/
structure CodeSection where
  id : String
  code_id : String
  file_path : String
  type : String
  name : Option String
  signature : Option String
  content : String
deriving DecidableEq, Repr

/-- A test-case section as built by `_build_test_case_sections`. -/
structure TCSection where
  id : String
  tc_id : String
  component : String
  name : String
  description : String
  input_data : String
  expected_output : String
  test_steps : List String
  content : String
  file_path : String
deriving DecidableEq, Repr

/-- The sum of the section shapes `_prepare_section_summary` and
`_are_sections_related_llm` accept. -/
inductive KBSec where
  | fr (s : FRSection)
  | nfr (s : NFRSection)
  | des (s : DesignKBSection)
  | code (s : CodeSection)
  | tc (s : TCSection)
deriving DecidableEq, Repr

/-- Embedding of `_prepare_section_summary`: title/name/ID line, truncated description,
truncated content, signature, type — each only when the key exists and its
value is truthy (non-empty). -/
def prepare_section_summary (sec : KBSec) : String :=
  let idLine : List String :=
    match sec with
    | KBSec.fr s =>
      if s.title ≠ "" then ["Title: " ++ s.title]
      else if s.fr_id ≠ "" then ["ID: " ++ s.fr_id] else []
    | KBSec.nfr s =>
      if s.title ≠ "" then ["Title: " ++ s.title]
      else if s.nfr_id ≠ "" then ["ID: " ++ s.nfr_id] else []
    | KBSec.des s =>
      if s.title ≠ "" then ["Title: " ++ s.title]
      else if s.des_id ≠ "" then ["ID: " ++ s.des_id] else []
    | KBSec.code s =>
      if s.name.getD "" ≠ "" then ["Name: " ++ s.name.getD ""]
      else if s.code_id ≠ "" then ["ID: " ++ s.code_id] else []
    | KBSec.tc s =>
      if s.name ≠ "" then ["Name: " ++ s.name]
      else if s.tc_id ≠ "" then ["ID: " ++ s.tc_id] else []
  let descLine : List String :=
    match sec with
    | KBSec.fr s => if s.description ≠ "" then ["Description: " ++ pyTake 500 s.description] else []
    | KBSec.nfr s => if s.description ≠ "" then ["Description: " ++ pyTake 500 s.description] else []
    | KBSec.des s => if s.description ≠ "" then ["Description: " ++ pyTake 500 s.description] else []
    | KBSec.code _ => []
    | KBSec.tc s => if s.description ≠ "" then ["Description: " ++ pyTake 500 s.description] else []
  let contentLine : List String :=
    match sec with
    | KBSec.fr s => if s.content ≠ "" then ["Content: " ++ pyTake 800 s.content] else []
    | KBSec.nfr s => if s.content ≠ "" then ["Content: " ++ pyTake 800 s.content] else []
    | KBSec.des s => if s.content ≠ "" then ["Content: " ++ pyTake 800 s.content] else []
    | KBSec.code s => if s.content ≠ "" then ["Content: " ++ pyTake 800 s.content] else []
    | KBSec.tc s => if s.content ≠ "" then ["Content: " ++ pyTake 800 s.content] else []
  let sigLine : List String :=
    match sec with
    | KBSec.code s => if s.signature.getD "" ≠ "" then ["Signature: " ++ s.signature.getD ""] else []
    | _ => []
  let typeLine : List String :=
    match sec with
    | KBSec.code s => if s.type ≠ "" then ["Type: " ++ s.type] else []
    | _ => []
  joinNL (idLine ++ descLine ++ contentLine ++ sigLine ++ typeLine)

/-- The prompt of `_are_sections_related_llm`. -/
def relationship_prompt (section1 section2 : KBSec)
    (relationship_type expected_relation : String) : String :=
  "You are analyzing relationships between sections in a software project knowledge base.\n\n"
    ++ "Relationship Type: " ++ relationship_type ++ "\n"
    ++ "Expected Relationship: " ++ expected_relation ++ "\n\n"
    ++ "Section 1:\n" ++ prepare_section_summary section1 ++ "\n\n"
    ++ "Section 2:\n" ++ prepare_section_summary section2 ++ "\n\n"
    ++ "Based on the content and context of these two sections, determine if they are related in the context of the expected relationship.\n\n"
    ++ "Respond with ONLY one word: \"YES\" if they are related, or \"NO\" if they are not related.\n"
    ++ "Do not provide any explanation, just \"YES\" or \"NO\"."

/-- The completion capability: `invoke(prompt, temperature, max_tokens)`
returns text or raises (modelled by `Except`).  The sampling parameters are
passed through from the configuration and never computed with. -/
structure LLMClient where
  invoke : String → Rat → Nat → Except String String

/-- The configuration consumed by the relationship classifier. -/
structure KBSettings where
  RELATIONSHIP_LLM_TEMPERATURE : Rat
  RELATIONSHIP_LLM_MAX_TOKENS : Nat

/-- Embedding of `_are_sections_related_llm`: one classifier query; the response is
stripped, upper-cased and tested for the prefix `"YES"`; an exception from
`invoke` yields `false`. -/
def are_sections_related_llm (client : LLMClient) (S : KBSettings)
    (section1 section2 : KBSec) (relationship_type expected_relation : String) : Bool :=
  match client.invoke (relationship_prompt section1 section2 relationship_type expected_relation)
      S.RELATIONSHIP_LLM_TEMPERATURE S.RELATIONSHIP_LLM_MAX_TOKENS with
  | Except.ok response => strStarts (pyUpper (pyStrip response)) "YES"
  | Except.error _ => false

/-- A `Req2Des` edge. -/
structure ReqDesEdge where
  requirement_id : String
  requirement_type : String
  design_id : String
  relationship_type : String
deriving DecidableEq, Repr

/-- A `Req2Code` edge. -/
structure ReqCodeEdge where
  requirement_id : String
  requirement_type : String
  code_id : String
  relationship_type : String
deriving DecidableEq, Repr

/-- A `Des2Code` edge. -/
structure DesCodeEdge where
  design_id : String
  code_id : String
  relationship_type : String
deriving DecidableEq, Repr

/-- A `Code2TC` edge. -/
structure CodeTCEdge where
  code_id : String
  test_case_id : String
  relationship_type : String
deriving DecidableEq, Repr

/-- A `Req2TC` edge. -/
structure ReqTCEdge where
  requirement_id : String
  requirement_type : String
  test_case_id : String
  relationship_type : String
deriving DecidableEq, Repr

/-- The five edge lists of the `Relationship` map. -/
structure Relationships where
  Req2Des : List ReqDesEdge
  Req2Code : List ReqCodeEdge
  Des2Code : List DesCodeEdge
  Code2TC : List CodeTCEdge
  Req2TC : List ReqTCEdge
deriving DecidableEq, Repr

/-- Embedding of `_build_relationships_fallback`: one `Req2Des` edge from the first FR to
the first design section when both lists are non-empty, and `Code2TC` edges
by truthy case-insensitive name-in-component matching; nothing else. -/
def build_relationships_fallback (fr_sections : List FRSection)
    (nfr_sections : List NFRSection) (design_sections : List DesignKBSection)
    (code_sections : List CodeSection) (test_case_sections : List TCSection) :
    Relationships :=
  { Req2Des :=
      match fr_sections, design_sections with
      | fr :: _, des :: _ => [⟨fr.id, "FR", des.id, "implements"⟩]
      | _, _ => [],
    Req2Code := [],
    Des2Code := [],
    Code2TC :=
      code_sections.flatMap (fun code =>
        if code.type = "function" ∨ code.type = "class" then
          test_case_sections.filterMap (fun tc =>
            if code.name.getD "" ≠ "" ∧
                inStr (pyLower (code.name.getD "")) (pyLower tc.component) then
              some ⟨code.id, tc.id, "tested_by"⟩
            else none)
        else []),
    Req2TC := [] }

/-- Embedding of `_build_relationships` in classifier mode: the five nested loops, each
appending one edge per classifier-confirmed pair. -/
def build_relationships_llm (client : LLMClient) (S : KBSettings)
    (fr_sections : List FRSection) (nfr_sections : List NFRSection)
    (design_sections : List DesignKBSection) (code_sections : List CodeSection)
    (test_case_sections : List TCSection) : Relationships :=
  { Req2Des :=
      (fr_sections.flatMap (fun fr =>
        design_sections.filterMap (fun design =>
          if are_sections_related_llm client S (KBSec.fr fr) (KBSec.des design)
              "Requirement to Design"
              "The requirement is implemented by this design section" then
            some ⟨fr.id, "FR", design.id, "implements"⟩
          else none)))
      ++ (nfr_sections.flatMap (fun nfr =>
        design_sections.filterMap (fun design =>
          if are_sections_related_llm client S (KBSec.nfr nfr) (KBSec.des design)
              "Non-Functional Requirement to Design"
              "The NFR constrains or influences this design section" then
            some ⟨nfr.id, "NFR", design.id, "constrains"⟩
          else none))),
    Req2Code :=
      fr_sections.flatMap (fun fr =>
        code_sections.filterMap (fun code =>
          if code.type = "function" ∨ code.type = "class" then
            if are_sections_related_llm client S (KBSec.fr fr) (KBSec.code code)
                "Requirement to Code"
                "The requirement is implemented by this code section" then
              some ⟨fr.id, "FR", code.id, "implements"⟩
            else none
          else none)),
    Des2Code :=
      design_sections.flatMap (fun design =>
        code_sections.filterMap (fun code =>
          if code.type = "function" ∨ code.type = "class" then
            if are_sections_related_llm client S (KBSec.des design) (KBSec.code code)
                "Design to Code"
                "The design section is realized by this code section" then
              some ⟨design.id, code.id, "realized_by"⟩
            else none
          else none)),
    Code2TC :=
      code_sections.flatMap (fun code =>
        if code.type = "function" ∨ code.type = "class" then
          test_case_sections.filterMap (fun tc =>
            if are_sections_related_llm client S (KBSec.code code) (KBSec.tc tc)
                "Code to Test Case"
                "The test case tests this code section" then
              some ⟨code.id, tc.id, "tested_by"⟩
            else none)
        else []),
    Req2TC :=
      fr_sections.flatMap (fun fr =>
        test_case_sections.filterMap (fun tc =>
          if are_sections_related_llm client S (KBSec.fr fr) (KBSec.tc tc)
              "Requirement to Test Case"
              "The test case validates this requirement" then
            some ⟨fr.id, "FR", tc.id, "validated_by"⟩
          else none)) }

/-- Embedding of `_build_relationships`: the fallback when `self.llm_client` is `None`,
the classifier loops otherwise. -/
def build_relationships (client : Option LLMClient) (S : KBSettings)
    (fr_sections : List FRSection) (nfr_sections : List NFRSection)
    (design_sections : List DesignKBSection) (code_sections : List CodeSection)
    (test_case_sections : List TCSection) : Relationships :=
  match client with
  | none =>
    build_relationships_fallback fr_sections nfr_sections design_sections
      code_sections test_case_sections
  | some c =>
    build_relationships_llm c S fr_sections nfr_sections design_sections
      code_sections test_case_sections

/-! ## Theorems -/

/-- Claim C1 (evaluation at the failing input): on the requirements text
`"FR1: Login\nUsers can log in.\nNFR1: Perf\nResponse under 200ms."` the
parser returns an empty FR list and an NFR list holding both records — the
record opened by the `FR1` header is closed into the non-functional list when
the `NFR1` header arrives, so the claim's expected one-FR/one-NFR split does
not hold. -/
theorem c1_requirements_example_eval :
    parse_requirements_response
        "FR1: Login\nUsers can log in.\nNFR1: Perf\nResponse under 200ms." =
      ⟨[],
       [⟨"FR1", "FR1: Login", "Users can log in.", "Users can log in."⟩,
        ⟨"NFR1", "NFR1: Perf", "Response under 200ms.", "Response under 200ms."⟩],
       "FR1: Login\nUsers can log in.\nNFR1: Perf\nResponse under 200ms."⟩ := by
  decide

/-- Claim C7 (counterexample): the line `"NON-FUNCTIONAL REQUIREMENTS"`
contains the case-insensitive phrase "non-functional requirement", yet the
parser switches the section tag to FR, because the FR test
(`'FUNCTIONAL REQUIREMENT' in line.upper()`) matches first on the substring. -/
theorem c7_counterexample :
    inStr "NON-FUNCTIONAL REQUIREMENT" (pyUpper (pyStrip "NON-FUNCTIONAL REQUIREMENTS")) = true ∧
    (reqStep reqInit "NON-FUNCTIONAL REQUIREMENTS").current_section = some ReqSection.FR := by
  decide

/-- A string starting with "NFR" (upper-cased) does not start with "FR". -/
theorem nfr_not_fr (s : String) (h : strStarts s "NFR" = true) : strStarts s "FR" = false := by
  unfold strStarts at h ⊢
  have hn : "NFR".data = ['N', 'F', 'R'] := rfl
  have hf : "FR".data = ['F', 'R'] := rfl
  rw [hn] at h
  rw [hf]
  cases hd : s.data with
  | nil => rw [hd] at h; exact absurd h (by decide)
  | cons c cs =>
    rw [hd] at h
    simp only [leadsWith, Bool.and_eq_true, decide_eq_true_eq] at h
    simp only [leadsWith]
    rw [← h.1]
    exact Bool.false_and _

/-- A string starting with "NFR" is non-empty. -/
theorem nfr_starts_ne_empty (s : String) (h : strStarts (pyUpper s) "NFR" = true) :
    ¬ (s = "") := by
  intro heq
  rw [heq] at h
  exact absurd h (by decide)

/-- Claim C3: the relationship classifier adapter answers `true` exactly when
the completion response, stripped and upper-cased, starts with "YES"; a
failure raised by the completion capability yields `false`. -/
theorem c3_classifier_fail_closed (client : LLMClient) (S : KBSettings)
    (s1 s2 : KBSec) (rt er : String) :
    (∀ r : String,
        client.invoke (relationship_prompt s1 s2 rt er)
            S.RELATIONSHIP_LLM_TEMPERATURE S.RELATIONSHIP_LLM_MAX_TOKENS = Except.ok r →
        (are_sections_related_llm client S s1 s2 rt er = true ↔
          strStarts (pyUpper (pyStrip r)) "YES" = true)) ∧
    (∀ e : String,
        client.invoke (relationship_prompt s1 s2 rt er)
            S.RELATIONSHIP_LLM_TEMPERATURE S.RELATIONSHIP_LLM_MAX_TOKENS = Except.error e →
        are_sections_related_llm client S s1 s2 rt er = false) := by
  constructor
  · intro r h
    unfold are_sections_related_llm
    rw [h]
  · intro e h
    unfold are_sections_related_llm
    rw [h]

/-- Witness for C3: a concrete client answering " yes we are" is classified
as related. -/
theorem c3_witness :
    are_sections_related_llm ⟨fun _ _ _ => Except.ok " yes we are"⟩ ⟨0, 10⟩
      (KBSec.fr ⟨"u1", "FR1", "Login", "d", "c", "Medium", ""⟩)
      (KBSec.des ⟨"u2", "DES1", "Design", "d", "c"⟩)
      "Requirement to Design"
      "The requirement is implemented by this design section" = true := by
  exact ((c3_classifier_fail_closed ⟨fun _ _ _ => Except.ok " yes we are"⟩ ⟨0, 10⟩
    (KBSec.fr ⟨"u1", "FR1", "Login", "d", "c", "Medium", ""⟩)
    (KBSec.des ⟨"u2", "DES1", "Design", "d", "c"⟩)
    "Requirement to Design"
    "The requirement is implemented by this design section").1
    " yes we are" rfl).mpr (by decide)

/-- Claim C5: in fallback mode, with a non-empty FR list and a non-empty
design-section list, `Req2Des` is exactly one edge from the first FR to the
first design section labelled "implements"; and for every input the fallback
produces no `Req2Code`, `Des2Code` or `Req2TC` edges. -/
theorem c5_fallback_single_req2des (fr : FRSection) (frs : List FRSection)
    (des : DesignKBSection) (designs : List DesignKBSection) (nfrs : List NFRSection)
    (codes : List CodeSection) (tcs : List TCSection) :
    (build_relationships_fallback (fr :: frs) nfrs (des :: designs) codes tcs).Req2Des =
      [⟨fr.id, "FR", des.id, "implements"⟩] ∧
    ∀ (frs' : List FRSection) (nfrs' : List NFRSection) (designs' : List DesignKBSection)
      (codes' : List CodeSection) (tcs' : List TCSection),
      (build_relationships_fallback frs' nfrs' designs' codes' tcs').Req2Code = [] ∧
      (build_relationships_fallback frs' nfrs' designs' codes' tcs').Des2Code = [] ∧
      (build_relationships_fallback frs' nfrs' designs' codes' tcs').Req2TC = [] := by
  exact ⟨rfl, fun _ _ _ _ _ => ⟨rfl, rfl, rfl⟩⟩

/-- Claim C7 (amended): a line starting with "NFR" (case-insensitively) that
does not contain the phrase "functional requirement" switches the section tag
to NFR; and the final open record is closed into the FR list when the
last-seen tag is FR, into the NFR list otherwise. -/
theorem c7_nfr_switch_and_final_close :
    (∀ (st : ReqState) (l : String),
        strStarts (pyUpper (pyStrip l)) "NFR" = true →
        inStr "FUNCTIONAL REQUIREMENT" (pyUpper (pyStrip l)) = false →
        (reqStep st l).current_section = some ReqSection.NFR) ∧
    (∀ (st : ReqState) (r : ReqRecord),
        st.current_req = some r →
        (st.current_section = some ReqSection.FR →
          reqFinish st = (st.frs ++ [r], st.nfrs)) ∧
        (st.current_section ≠ some ReqSection.FR →
          reqFinish st = (st.frs, st.nfrs ++ [r]))) := by
  constructor
  · intro st l h1 h2
    have hne : ¬ (pyStrip l = "") := nfr_starts_ne_empty (pyStrip l) h1
    have hfr : strStarts (pyUpper (pyStrip l)) "FR" = false :=
      nfr_not_fr (pyUpper (pyStrip l)) h1
    cases hs : searchId ['N', 'F', 'R'] (pyStrip l).data <;>
      simp [reqStep, hne, h2, hfr, h1, hs]
  · intro st r hr
    constructor
    · intro hs
      unfold reqFinish
      rw [hr]
      simp [hs]
    · intro hs
      unfold reqFinish
      rw [hr]
      simp [hs]

/-- Folding the design loop over lines none of which is a header keeps the
section list empty and the current title empty. -/
theorem design_fold_no_header (lines : List String) :
    ∀ (st : DesignState), st.sections = [] → st.current_section = "" →
    (∀ l ∈ lines, design_is_header (pyStrip l) = false) →
    (lines.foldl designStep st).sections = [] ∧
    (lines.foldl designStep st).current_section = "" := by
  induction lines with
  | nil => intro st h1 h2 _; exact ⟨h1, h2⟩
  | cons l ls ih =>
    intro st h1 h2 hh
    have hl : design_is_header (pyStrip l) = false := hh l (by simp)
    have hls : ∀ l' ∈ ls, design_is_header (pyStrip l') = false :=
      fun l' hl' => hh l' (by simp [hl'])
    simp only [List.foldl_cons]
    by_cases he : pyStrip l = ""
    · exact ih (designStep st l) (by simp [designStep, he, h1]) (by simp [designStep, he, h2]) hls
    · exact ih (designStep st l) (by simp [designStep, he, hl, h1])
        (by simp [designStep, he, hl, h2]) hls

/-- Claim C9: a design-mode text in which no (stripped) line is a header
parses to exactly one synthetic section titled "Technical Design", whose
description is the first 500 characters and whose content is the full text;
in particular the section list is never empty. -/
theorem c9_design_no_header_synthetic (text : String)
    (h : ∀ l ∈ splitNL text, design_is_header (pyStrip l) = false) :
    (parse_design_response text).sections =
      [⟨"Technical Design", pyTake 500 text, text⟩] ∧
    (parse_design_response text).sections ≠ [] := by
  obtain ⟨h1, h2⟩ := design_fold_no_header (splitNL text) ⟨[], "", []⟩ rfl rfl h
  constructor
  · unfold parse_design_response
    simp [designClose, h1, h2]
  · unfold parse_design_response
    simp [designClose, h1, h2]

/-- Witness for C9 at a concrete header-free text. -/
theorem c9_witness :
    (parse_design_response "hello design\nsome body text").sections =
      [⟨"Technical Design", pyTake 500 "hello design\nsome body text",
        "hello design\nsome body text"⟩] ∧
    (parse_design_response "hello design\nsome body text").sections ≠ [] :=
  c9_design_no_header_synthetic "hello design\nsome body text" (by decide)

/-- Claim C8 (counterexample): a function code section whose name is the
empty string is never linked to a test case, although the empty string is a
(case-insensitive) substring of the component "LoginComponent" — the source
additionally requires the name to be truthy, so the claimed "if and only if
substring" fails. -/
theorem c8_counterexample :
    inStr (pyLower "") (pyLower "LoginComponent") = true ∧
    (build_relationships_fallback [] [] []
        [⟨"c1", "CODE2", "a.py", "function", some "", some "", ""⟩]
        [⟨"t1", "TC1", "LoginComponent", "n", "d", "i", "e", [], "raw", "a.py"⟩]).Code2TC
      = [] := by
  decide

/-- Claim C8 (amended): in fallback mode a `Code2TC` edge labelled
"tested_by" is emitted for a code-section/test-case pair exactly when the
code section's type is function or class, its name is non-empty, and the
lower-cased name is a substring of the lower-cased component field. -/
theorem c8_fallback_code2tc_iff (frs : List FRSection) (nfrs : List NFRSection)
    (designs : List DesignKBSection) (codes : List CodeSection) (tcs : List TCSection)
    (e : CodeTCEdge) :
    e ∈ (build_relationships_fallback frs nfrs designs codes tcs).Code2TC ↔
      ∃ code ∈ codes, ∃ tc ∈ tcs,
        (code.type = "function" ∨ code.type = "class") ∧
        code.name.getD "" ≠ "" ∧
        inStr (pyLower (code.name.getD "")) (pyLower tc.component) = true ∧
        e = ⟨code.id, tc.id, "tested_by"⟩ := by
  unfold build_relationships_fallback
  simp only [List.mem_flatMap, List.mem_filterMap]
  constructor
  · rintro ⟨code, hcode, hmem⟩
    split at hmem
    next ht =>
      obtain ⟨tc, htc, hsome⟩ := List.mem_filterMap.mp hmem
      split at hsome
      next hcond =>
        cases hsome
        exact ⟨code, hcode, tc, htc, ht, hcond.1, hcond.2, rfl⟩
      next => exact absurd hsome (by simp)
    next => simp at hmem
  · rintro ⟨code, hcode, tc, htc, ht, hname, hsub, rfl⟩
    refine ⟨code, hcode, ?_⟩
    rw [if_pos ht]
    exact List.mem_filterMap.mpr ⟨tc, htc, by rw [if_pos ⟨hname, hsub⟩]⟩

/-- Witness for C8: the spec's own example — a function named "login" and a
test case with component "LoginComponent" — produces the edge. -/
theorem c8_witness :
    (⟨"c1", "t1", "tested_by"⟩ : CodeTCEdge) ∈
      (build_relationships_fallback [] [] []
        [⟨"c1", "CODE2", "a.py", "function", some "login", some "def login()", "code"⟩]
        [⟨"t1", "TC1", "LoginComponent", "n", "d", "i", "e", [], "raw", "a.py"⟩]).Code2TC := by
  exact (c8_fallback_code2tc_iff [] [] []
    [⟨"c1", "CODE2", "a.py", "function", some "login", some "def login()", "code"⟩]
    [⟨"t1", "TC1", "LoginComponent", "n", "d", "i", "e", [], "raw", "a.py"⟩]
    ⟨"c1", "t1", "tested_by"⟩).mpr
    ⟨⟨"c1", "CODE2", "a.py", "function", some "login", some "def login()", "code"⟩,
      by decide,
      ⟨"t1", "TC1", "LoginComponent", "n", "d", "i", "e", [], "raw", "a.py"⟩,
      by decide, by decide, by decide, by decide, by decide⟩

/-- Code endpoints of classifier-mode `Req2Code` edges: the edge aims at a
function/class code section of the input and carries an FR requirement. -/
theorem req2code_llm_shape (client : LLMClient) (S : KBSettings)
    (frs : List FRSection) (nfrs : List NFRSection) (designs : List DesignKBSection)
    (codes : List CodeSection) (tcs : List TCSection) (e : ReqCodeEdge)
    (he : e ∈ (build_relationships_llm client S frs nfrs designs codes tcs).Req2Code) :
    (∃ code ∈ codes, e.code_id = code.id ∧ (code.type = "function" ∨ code.type = "class")) ∧
    e.requirement_type = "FR" ∧ ∃ fr ∈ frs, e.requirement_id = fr.id := by
  unfold build_relationships_llm at he
  simp only [List.mem_flatMap, List.mem_filterMap] at he
  obtain ⟨fr, hfr, code, hcode, hsome⟩ := he
  split at hsome
  next ht =>
    split at hsome
    next =>
      cases hsome
      exact ⟨⟨code, hcode, rfl, ht⟩, rfl, fr, hfr, rfl⟩
    next => exact absurd hsome (by simp)
  next => exact absurd hsome (by simp)

/-- Code endpoints of classifier-mode `Des2Code` edges. -/
theorem des2code_llm_shape (client : LLMClient) (S : KBSettings)
    (frs : List FRSection) (nfrs : List NFRSection) (designs : List DesignKBSection)
    (codes : List CodeSection) (tcs : List TCSection) (e : DesCodeEdge)
    (he : e ∈ (build_relationships_llm client S frs nfrs designs codes tcs).Des2Code) :
    ∃ code ∈ codes, e.code_id = code.id ∧ (code.type = "function" ∨ code.type = "class") := by
  unfold build_relationships_llm at he
  simp only [List.mem_flatMap, List.mem_filterMap] at he
  obtain ⟨des, hdes, code, hcode, hsome⟩ := he
  split at hsome
  next ht =>
    split at hsome
    next =>
      cases hsome
      exact ⟨code, hcode, rfl, ht⟩
    next => exact absurd hsome (by simp)
  next => exact absurd hsome (by simp)

/-- Code endpoints of classifier-mode `Code2TC` edges. -/
theorem code2tc_llm_shape (client : LLMClient) (S : KBSettings)
    (frs : List FRSection) (nfrs : List NFRSection) (designs : List DesignKBSection)
    (codes : List CodeSection) (tcs : List TCSection) (e : CodeTCEdge)
    (he : e ∈ (build_relationships_llm client S frs nfrs designs codes tcs).Code2TC) :
    ∃ code ∈ codes, e.code_id = code.id ∧ (code.type = "function" ∨ code.type = "class") := by
  unfold build_relationships_llm at he
  simp only [List.mem_flatMap] at he
  obtain ⟨code, hcode, hmem⟩ := he
  split at hmem
  next ht =>
    obtain ⟨tc, htc, hsome⟩ := List.mem_filterMap.mp hmem
    split at hsome
    next =>
      cases hsome
      exact ⟨code, hcode, rfl, ht⟩
    next => exact absurd hsome (by simp)
  next => simp at hmem

/-- Requirement endpoints of classifier-mode `Req2TC` edges: always an FR of
the input list. -/
theorem req2tc_llm_shape (client : LLMClient) (S : KBSettings)
    (frs : List FRSection) (nfrs : List NFRSection) (designs : List DesignKBSection)
    (codes : List CodeSection) (tcs : List TCSection) (e : ReqTCEdge)
    (he : e ∈ (build_relationships_llm client S frs nfrs designs codes tcs).Req2TC) :
    e.requirement_type = "FR" ∧ ∃ fr ∈ frs, e.requirement_id = fr.id := by
  unfold build_relationships_llm at he
  simp only [List.mem_flatMap, List.mem_filterMap] at he
  obtain ⟨fr, hfr, tc, htc, hsome⟩ := he
  split at hsome
  next =>
    cases hsome
    exact ⟨rfl, fr, hfr, rfl⟩
  next => exact absurd hsome (by simp)

/-- Code endpoints of fallback-mode `Code2TC` edges. -/
theorem code2tc_fallback_shape (frs : List FRSection) (nfrs : List NFRSection)
    (designs : List DesignKBSection) (codes : List CodeSection) (tcs : List TCSection)
    (e : CodeTCEdge)
    (he : e ∈ (build_relationships_fallback frs nfrs designs codes tcs).Code2TC) :
    ∃ code ∈ codes, e.code_id = code.id ∧ (code.type = "function" ∨ code.type = "class") := by
  unfold build_relationships_fallback at he
  simp only [List.mem_flatMap] at he
  obtain ⟨code, hcode, hmem⟩ := he
  split at hmem
  next ht =>
    obtain ⟨tc, htc, hsome⟩ := List.mem_filterMap.mp hmem
    split at hsome
    next =>
      cases hsome
      exact ⟨code, hcode, rfl, ht⟩
    next => exact absurd hsome (by simp)
  next => simp at hmem

/-- Claim C6: in every relationship map produced — classifier mode or
fallback mode — every `Code2TC`, `Req2Code` and `Des2Code` edge points at a
code section of the input whose type is "function" or "class" (never
"file"), and every `Req2Code`/`Req2TC` edge carries requirement type "FR"
and the id of an FR section (never an NFR). -/
theorem c6_edge_endpoint_invariants (client : Option LLMClient) (S : KBSettings)
    (frs : List FRSection) (nfrs : List NFRSection) (designs : List DesignKBSection)
    (codes : List CodeSection) (tcs : List TCSection) :
    (∀ e ∈ (build_relationships client S frs nfrs designs codes tcs).Code2TC,
      ∃ code ∈ codes, e.code_id = code.id ∧ (code.type = "function" ∨ code.type = "class")) ∧
    (∀ e ∈ (build_relationships client S frs nfrs designs codes tcs).Req2Code,
      (∃ code ∈ codes, e.code_id = code.id ∧ (code.type = "function" ∨ code.type = "class")) ∧
      e.requirement_type = "FR" ∧ ∃ fr ∈ frs, e.requirement_id = fr.id) ∧
    (∀ e ∈ (build_relationships client S frs nfrs designs codes tcs).Des2Code,
      ∃ code ∈ codes, e.code_id = code.id ∧ (code.type = "function" ∨ code.type = "class")) ∧
    (∀ e ∈ (build_relationships client S frs nfrs designs codes tcs).Req2TC,
      e.requirement_type = "FR" ∧ ∃ fr ∈ frs, e.requirement_id = fr.id) := by
  cases client with
  | none =>
    refine ⟨?_, ?_, ?_, ?_⟩
    · intro e he
      exact code2tc_fallback_shape frs nfrs designs codes tcs e he
    · intro e he
      simp [build_relationships, build_relationships_fallback] at he
    · intro e he
      simp [build_relationships, build_relationships_fallback] at he
    · intro e he
      simp [build_relationships, build_relationships_fallback] at he
  | some c =>
    refine ⟨?_, ?_, ?_, ?_⟩
    · intro e he
      exact code2tc_llm_shape c S frs nfrs designs codes tcs e he
    · intro e he
      exact req2code_llm_shape c S frs nfrs designs codes tcs e he
    · intro e he
      exact des2code_llm_shape c S frs nfrs designs codes tcs e he
    · intro e he
      exact req2tc_llm_shape c S frs nfrs designs codes tcs e he

/-- A non-header line inside an open record changes neither the parsed list,
nor the stop flag, nor the id of the open record. -/
theorem tcBody_preserve (st : TCState) (cur : TestCase) (line : String)
    (hcur : st.current_test = some cur) :
    (tcBody st cur line).tests = st.tests ∧
    (tcBody st cur line).stopped = st.stopped ∧
    (tcBody st cur line).current_test.map (fun t => t.id) = some cur.id := by
  unfold tcBody
  repeat' split
  all_goals simp [hcur]

/-- The invariant holds initially. -/
theorem tcInv_init (M : Nat) : tcInv M tcInit [] := by
  simp [tcInv, tcInit]

/-- The invariant is preserved by one line of the test-case parser. -/
theorem tcInv_step (M : Nat) (hM : 1 ≤ M) (comp : String) (st : TCState) (hs : List String)
    (l : String) (hinv : tcInv M st hs) :
    tcInv M (tcStep M comp st l)
      (hs ++ (searchId ['T', 'C'] (pyStrip l).data).toList) := by
  by_cases hstop : st.stopped = true
  · -- already stopped: the state and the first M headers are frozen
    have hgt : ¬ (hs.length ≤ M + 1) := by
      intro hle
      rw [tcInv, if_pos hle] at hinv
      rw [hinv.1] at hstop
      exact absurd hstop (by decide)
    rw [tcInv, if_neg hgt] at hinv
    have hstep : tcStep M comp st l = st := by
      unfold tcStep
      rw [if_pos hstop]
    rw [hstep, tcInv,
      if_neg (by rw [List.length_append]; omega)]
    refine ⟨hinv.1, ?_, ?_⟩
    · rw [List.take_append_of_le_length (by omega)]
      exact hinv.2.1
    · rw [List.getElem?_append_left (by omega)]
      exact hinv.2.2
  · have hstop' : st.stopped = false := by
      cases h : st.stopped
      · rfl
      · exact absurd h hstop
    have hle : hs.length ≤ M + 1 := by
      by_contra hgt
      rw [tcInv, if_neg hgt] at hinv
      exact absurd hinv.1 hstop
    have hinv' := hinv
    rw [tcInv, if_pos hle] at hinv'
    obtain ⟨-, htests, hcur⟩ := hinv'
    by_cases hemp : pyStrip l = ""
    · -- blank line: nothing happens, no header either
      have hnone : searchId ['T', 'C'] (pyStrip l).data = none := by
        rw [hemp]
        rfl
      have hstep : tcStep M comp st l = st := by
        unfold tcStep
        rw [if_neg hstop, if_pos hemp]
      rw [hstep, hnone]
      simp only [Option.toList_none, List.append_nil]
      exact hinv
    · cases hsearch : searchId ['T', 'C'] (pyStrip l).data with
      | none =>
        -- a body line: the observable state components are unchanged
        have hstep : tcStep M comp st l = tcLine M comp st (pyStrip l) := by
          unfold tcStep
          rw [if_neg hstop, if_neg hemp]
        rw [hstep]
        cases hcur2 : st.current_test with
        | none =>
          have hline : tcLine M comp st (pyStrip l) = st := by
            unfold tcLine
            rw [hsearch, hcur2]
          rw [hline]
          simpa using hinv
        | some cur =>
          have hline : tcLine M comp st (pyStrip l) = tcBody st cur (pyStrip l) := by
            unfold tcLine
            rw [hsearch, hcur2]
          rw [hline]
          obtain ⟨hT, hS, hC⟩ := tcBody_preserve st cur (pyStrip l) hcur2
          rw [tcInv, if_pos (by simpa using hle)]
          rw [hcur2] at hcur
          simp only [Option.map_some'] at hcur
          refine ⟨by rw [hS, hstop'], ?_, ?_⟩
          · simpa [hT] using htests
          · simpa [hC] using hcur
      | some h =>
        -- a header line
        have hlen_tests : st.tests.length = hs.length - 1 := by
          have h1 := congrArg List.length htests
          rw [List.length_map, List.length_take] at h1
          omega
        have hstep : tcStep M comp st l = tcLine M comp st (pyStrip l) := by
          unfold tcStep
          rw [if_neg hstop, if_neg hemp]
        rw [hstep]
        simp only [Option.toList_some]
        by_cases hcap : M ≤ st.tests.length
        · -- the cap is reached: `break`
          have hk : hs.length = M + 1 := by omega
          have hline : tcLine M comp st (pyStrip l) = { st with stopped := true } := by
            unfold tcLine
            simp only [hsearch]
            rw [if_pos hcap]
          rw [hline, tcInv,
            if_neg (by simp only [List.length_append, List.length_singleton]; omega)]
          refine ⟨rfl, ?_, ?_⟩
          · show st.tests.map (fun t => t.id) = (hs ++ [h]).take M
            rw [List.take_append_of_le_length (by omega), htests, hk]
            norm_num
          · show st.current_test.map (fun t => t.id) = (hs ++ [h])[M]?
            rw [List.getElem?_append_left (by omega)]
            have hMk : hs[M]? = hs[hs.length - 1]? := by
              rw [hk]
              norm_num
            rw [hMk]
            exact hcur
        · -- below the cap: close the open record and open a new one
          have hkM : hs.length ≤ M := by omega
          have hline : tcLine M comp st (pyStrip l) =
              { tests := st.tests ++ (match st.current_test with | some t => [t] | none => []),
                current_test := some ⟨h, comp, "", "", "", "", [], pyStrip l⟩,
                current_field := none,
                stopped := false } := by
            unfold tcLine
            simp only [hsearch]
            rw [if_neg hcap]
          rw [hline, tcInv,
            if_pos (by simp only [List.length_append, List.length_singleton]; omega)]
          refine ⟨rfl, ?_, ?_⟩
          · show (st.tests ++ _).map (fun t => t.id) =
              (hs ++ [h]).take ((hs ++ [h]).length - 1)
            have hlen' : (hs ++ [h]).length - 1 = hs.length := by
              rw [List.length_append]
              simp
            rw [hlen', List.take_append_of_le_length (Nat.le_refl _)]
            cases hcur2 : st.current_test with
            | none =>
              rw [hcur2] at hcur
              simp only [Option.map_none'] at hcur
              have hk0 : hs.length = 0 := by
                have := List.getElem?_eq_none_iff.mp hcur.symm
                omega
              have : hs = [] := List.eq_nil_of_length_eq_zero hk0
              subst this
              simpa using htests
            | some cur =>
              rw [hcur2] at hcur
              simp only [Option.map_some'] at hcur
              have hk1 : 1 ≤ hs.length := by
                by_contra h0
                have hz : hs.length = 0 := by omega
                have : hs[hs.length - 1]? = none :=
                  List.getElem?_eq_none_iff.mpr (by omega)
                rw [this] at hcur
                exact absurd hcur (by simp)
              have hsucc : hs.length = (hs.length - 1) + 1 := by omega
              rw [hsucc, List.take_succ, ← hcur]
              simp [htests]
          · show (some (⟨h, comp, "", "", "", "", [], pyStrip l⟩ : TestCase)).map (fun t => t.id)
              = (hs ++ [h])[(hs ++ [h]).length - 1]?
            have hlen' : (hs ++ [h]).length - 1 = hs.length := by
              rw [List.length_append]
              simp
            rw [hlen', List.getElem?_concat_length]
            simp

/-- The invariant holds after folding the whole line list. -/
theorem tcInv_foldl (M : Nat) (hM : 1 ≤ M) (comp : String) (lines : List String) :
    ∀ (st : TCState) (hs : List String), tcInv M st hs →
    tcInv M (lines.foldl (tcStep M comp) st)
      (hs ++ lines.filterMap (fun l => searchId ['T', 'C'] (pyStrip l).data)) := by
  induction lines with
  | nil =>
    intro st hs h
    simpa using h
  | cons l ls ih =>
    intro st hs h
    have hnext := ih (tcStep M comp st l)
      (hs ++ (searchId ['T', 'C'] (pyStrip l).data).toList)
      (tcInv_step M hM comp st hs l h)
    simp only [List.foldl_cons, List.filterMap_cons]
    cases hsearch : searchId ['T', 'C'] (pyStrip l).data with
    | none =>
      rw [hsearch] at hnext
      simpa using hnext
    | some a =>
      rw [hsearch] at hnext
      simpa [List.append_assoc] using hnext

/-- A state satisfying the invariant with strictly more headers seen than the
cap holds exactly the first `M` header ids and keeps a record open. -/
theorem tc_state_full (M : Nat) (hM : 1 ≤ M) (st : TCState) (hs : List String)
    (hinv : tcInv M st hs) (hK : M < hs.length) :
    st.tests.map (fun t => t.id) = hs.take M ∧ ∃ c, st.current_test = some c := by
  by_cases hle : hs.length ≤ M + 1
  · rw [tcInv, if_pos hle] at hinv
    have hk : hs.length = M + 1 := by omega
    constructor
    · rw [hinv.2.1, hk]
      norm_num
    · have hmap := hinv.2.2
      rw [hk] at hmap
      norm_num at hmap
      have hM' : M < hs.length := by omega
      rw [List.getElem?_eq_getElem hM'] at hmap
      obtain ⟨c, hc, -⟩ := Option.map_eq_some'.mp hmap
      exact ⟨c, hc⟩
  · rw [tcInv, if_neg hle] at hinv
    refine ⟨hinv.2.1, ?_⟩
    have hmap := hinv.2.2
    rw [List.getElem?_eq_getElem hK] at hmap
    obtain ⟨c, hc, -⟩ := Option.map_eq_some'.mp hmap
    exact ⟨c, hc⟩

/-- When the cap is already full and a record is open, the tail of the parser
returns exactly the parsed list. -/
theorem tcFinish_of_full (M : Nat) (hM : 1 ≤ M) (comp text : String) (st : TCState)
    (c : TestCase) (hc : st.current_test = some c) (hlen : st.tests.length = M) :
    tcFinish M comp text st = st.tests := by
  unfold tcFinish
  simp only [hc]
  rw [if_neg (show ¬ st.tests.length < M by omega)]
  rw [List.take_of_length_le (le_of_eq hlen)]
  rw [if_neg (show ¬ st.tests = [] by
    intro h0
    rw [h0] at hlen
    simp at hlen
    omega)]

/-- For a cap of at least 1, the parser never returns more than `M` records. -/
theorem tcFinish_length_le (M : Nat) (hM : 1 ≤ M) (comp text : String) (st : TCState) :
    (tcFinish M comp text st).length ≤ M := by
  unfold tcFinish
  cases hc : st.current_test with
  | none =>
    simp only [hc]
    split
    · simpa using hM
    · simp only [List.length_take]
      omega
  | some c =>
    simp only [hc]
    split
    · split
      · simpa using hM
      · simp only [List.length_take]
        omega
    · split
      · simpa using hM
      · simp only [List.length_take]
        omega

/-- Claim C4 (amended: for a configured maximum `M ≥ 1`): an input with more
than `M` `TC<digits>` header lines parses to exactly `M` records carrying the
first `M` header ids in input order, and no input ever parses to more than
`M` records.  (For `M = 0` the empty-result fallback emits one synthetic
record, so the bound fails there.) -/
theorem c4_cap_enforced (text comp : String) (M : Nat) (hM : 1 ≤ M)
    (hK : M < (tcHeaderIds text).length) :
    (parse_test_cases text comp M).map (fun t => t.id) = (tcHeaderIds text).take M ∧
    (parse_test_cases text comp M).length = M ∧
    ∀ t' : String, (parse_test_cases t' comp M).length ≤ M := by
  have hfold := tcInv_foldl M hM comp (splitNL text) tcInit [] (tcInv_init M)
  rw [List.nil_append] at hfold
  have hfold' : tcInv M ((splitNL text).foldl (tcStep M comp) tcInit) (tcHeaderIds text) :=
    hfold
  obtain ⟨hmap, c, hc⟩ :=
    tc_state_full M hM ((splitNL text).foldl (tcStep M comp) tcInit) (tcHeaderIds text)
      hfold' hK
  have hlen : ((splitNL text).foldl (tcStep M comp) tcInit).tests.length = M := by
    have h1 := congrArg List.length hmap
    rw [List.length_map, List.length_take] at h1
    omega
  have hfin : parse_test_cases text comp M =
      ((splitNL text).foldl (tcStep M comp) tcInit).tests := by
    unfold parse_test_cases
    exact tcFinish_of_full M hM comp text _ c hc hlen
  refine ⟨by rw [hfin]; exact hmap, by rw [hfin]; exact hlen, fun t' => ?_⟩
  unfold parse_test_cases
  exact tcFinish_length_le M hM comp t' _

/-- Claim C4 (counterexample): with a configured maximum of 0 and one header
line, the parser returns one record — the empty-result fallback overrides the
cap, so "the returned list never has more than M records" fails at `M = 0`. -/
theorem c4_counterexample :
    ¬ ((parse_test_cases "TC1: check" "comp" 0).length ≤ 0) := by
  decide

/-- Witness for C4 at a concrete three-header input with cap 2. -/
theorem c4_witness :
    (parse_test_cases "TC1 a\nTC2 b\nTC3 c" "comp" 2).map (fun t => t.id) =
      (tcHeaderIds "TC1 a\nTC2 b\nTC3 c").take 2 ∧
    (parse_test_cases "TC1 a\nTC2 b\nTC3 c" "comp" 2).length = 2 ∧
    ∀ t' : String, (parse_test_cases t' "comp" 2).length ≤ 2 :=
  c4_cap_enforced "TC1 a\nTC2 b\nTC3 c" "comp" 2 (by decide) (by decide)

/-- The empty mapping has no test cases. -/
theorem mappingTotal_nil : mappingTotal [] = 0 := rfl

/-- One entry contributes its list's length. -/
theorem mappingTotal_single (file_path : String) (l : List TestCase) :
    mappingTotal [(file_path, l)] = l.length := by
  simp [mappingTotal]

/-- The mapping total is additive. -/
theorem mappingTotal_append (a b : List (String × List TestCase)) :
    mappingTotal (a ++ b) = mappingTotal a + mappingTotal b := by
  simp [mappingTotal]

/-- The function loop's final running total is the starting total plus the
number of test cases it collected. -/
theorem gen_func_loop_sum (S : TGSettings) (llm : Option (String → String))
    (design_doc : DesignDoc) (fs : List FuncInfo) :
    ∀ total, (gen_func_loop S llm design_doc fs total).2 =
      total + (gen_func_loop S llm design_doc fs total).1.length := by
  induction fs with
  | nil =>
    intro total
    simp [gen_func_loop]
  | cons f fs ih =>
    intro total
    simp only [gen_func_loop]
    split
    · simp
    · simp only [List.length_append]
      rw [ih]
      omega

/-- The class loop's final running total is the starting total plus the
number of test cases it collected. -/
theorem gen_class_loop_sum (S : TGSettings) (llm : Option (String → String))
    (design_doc : DesignDoc) (cs : List ClassInfo) :
    ∀ total, (gen_class_loop S llm design_doc cs total).2 =
      total + (gen_class_loop S llm design_doc cs total).1.length := by
  induction cs with
  | nil =>
    intro total
    simp [gen_class_loop]
  | cons c cs ih =>
    intro total
    simp only [gen_class_loop]
    split
    · simp
    · simp only [List.length_append]
      rw [ih]
      omega

/-- The function loop keeps the running total within any bound that absorbs
one more per-function batch above the cap. -/
theorem gen_func_loop_le (S : TGSettings) (llm : Option (String → String))
    (design_doc : DesignDoc) (fs : List FuncInfo) (B : Nat)
    (hB : S.MAX_TOTAL_TEST_CASES - 1 + S.MAX_TEST_CASES_PER_FUNCTION ≤ B) :
    ∀ total, total ≤ B → (gen_func_loop S llm design_doc fs total).2 ≤ B := by
  induction fs with
  | nil =>
    intro total h
    simpa [gen_func_loop] using h
  | cons f fs ih =>
    intro total h
    simp only [gen_func_loop]
    split
    next => simpa using h
    next hlt =>
      apply ih
      have hlen : ((generate_function_test_cases S llm f design_doc).take
          S.MAX_TEST_CASES_PER_FUNCTION).length ≤ S.MAX_TEST_CASES_PER_FUNCTION := by
        simp only [List.length_take]
        omega
      omega

/-- The class loop keeps the running total within any bound that absorbs one
more per-class batch above the cap. -/
theorem gen_class_loop_le (S : TGSettings) (llm : Option (String → String))
    (design_doc : DesignDoc) (cs : List ClassInfo) (B : Nat)
    (hB : S.MAX_TOTAL_TEST_CASES - 1 + S.MAX_TEST_CASES_PER_CLASS ≤ B) :
    ∀ total, total ≤ B → (gen_class_loop S llm design_doc cs total).2 ≤ B := by
  induction cs with
  | nil =>
    intro total h
    simpa [gen_class_loop] using h
  | cons c cs ih =>
    intro total h
    simp only [gen_class_loop]
    split
    next => simpa using h
    next hlt =>
      apply ih
      have hlen : ((generate_class_test_cases S llm c design_doc).take
          S.MAX_TEST_CASES_PER_CLASS).length ≤ S.MAX_TEST_CASES_PER_CLASS := by
        simp only [List.length_take]
        omega
      omega

/-- The file loop's mapping never holds more than
`MAX_TOTAL_TEST_CASES - 1 + max(per-function, per-class)` test cases beyond
the starting total. -/
theorem gen_files_total_bound (S : TGSettings) (llm : Option (String → String))
    (design_doc : DesignDoc) (files : List (String × CodeInfo))
    (hmax : 1 ≤ S.MAX_TOTAL_TEST_CASES) :
    ∀ total, total < S.MAX_TOTAL_TEST_CASES →
    total + mappingTotal (gen_files S llm design_doc files total) ≤
      S.MAX_TOTAL_TEST_CASES - 1 +
        max S.MAX_TEST_CASES_PER_FUNCTION S.MAX_TEST_CASES_PER_CLASS := by
  induction files with
  | nil =>
    intro total htot
    simp only [gen_files, mappingTotal_nil]
    omega
  | cons fc rest ih =>
    obtain ⟨file_path, code_info⟩ := fc
    intro total htot
    have hp1 := gen_func_loop_sum S llm design_doc code_info.functions total
    have hp2 := gen_class_loop_sum S llm design_doc code_info.classes
      (gen_func_loop S llm design_doc code_info.functions total).2
    simp only [gen_files]
    split
    next hbreak =>
      simp only [mappingTotal_nil]
      omega
    next hcont =>
      have hclb := gen_class_loop_le S llm design_doc code_info.classes
        (S.MAX_TOTAL_TEST_CASES - 1 +
          max S.MAX_TEST_CASES_PER_FUNCTION S.MAX_TEST_CASES_PER_CLASS)
        (by omega)
        (gen_func_loop S llm design_doc code_info.functions total).2
        (by omega)
      split
      next hstop =>
        split
        next hempty =>
          simp only [mappingTotal_nil]
          omega
        next hne =>
          simp only [mappingTotal_single, List.length_append]
          omega
      next hgo =>
        have hrest := ih (gen_class_loop S llm design_doc code_info.classes
          (gen_func_loop S llm design_doc code_info.functions total).2).2 (by omega)
        split
        next hempty =>
          simp only [List.nil_append]
          omega
        next hne =>
          simp only [mappingTotal_append, mappingTotal_single, List.length_append]
          omega

/-- Claim C2 (amended): the total number of test cases across the returned
mapping is bounded by `MAX_TOTAL_TEST_CASES - 1 + max(per-function limit,
per-class limit)` (the cap is checked only before each component, so the last
accepted batch may overshoot it by up to one per-component batch); the run
never raises. -/
theorem c2_total_cap_overshoot_bound (S : TGSettings) (llm : Option (String → String))
    (parsed_code : List (String × CodeInfo)) (design_doc : DesignDoc)
    (hmax : 1 ≤ S.MAX_TOTAL_TEST_CASES) :
    mappingTotal (generate_test_cases S llm parsed_code design_doc) ≤
      S.MAX_TOTAL_TEST_CASES - 1 +
        max S.MAX_TEST_CASES_PER_FUNCTION S.MAX_TEST_CASES_PER_CLASS := by
  have h := gen_files_total_bound S llm design_doc parsed_code hmax 0 (by omega)
  simpa [generate_test_cases] using h

/-- Claim C2 (counterexample): with a total cap of 1 and one class producing
two test cases, the returned mapping holds 2 > 1 test cases — the total cap
is not an upper bound of the output. -/
theorem c2_counterexample :
    ¬ (mappingTotal (generate_test_cases ⟨1, 3, 3⟩
        (some (fun _ => "TC1 alpha\nTC2 beta"))
        [("a.py", ⟨[], [⟨some "Login", some "class Login", some "doc", []⟩]⟩)]
        ⟨[], ""⟩) ≤ 1) := by
  decide

/-- Witness for C2 at a concrete run. -/
theorem c2_witness :
    mappingTotal (generate_test_cases ⟨5, 2, 2⟩ none
        [("b.py", ⟨[⟨some "f", none, none, none⟩], []⟩)] ⟨[], ""⟩) ≤ 5 - 1 + max 2 2 :=
  c2_total_cap_overshoot_bound ⟨5, 2, 2⟩ none
    [("b.py", ⟨[⟨some "f", none, none, none⟩], []⟩)] ⟨[], ""⟩ (by decide)

/-- Claim C10: when the running total has reached the cap by the end of a
file's function loop, the mapping gets no entry for that file (nor any later
file), although everything the file's functions generated was counted toward
the running total. -/
theorem c10_file_entry_dropped (S : TGSettings) (llm : Option (String → String))
    (design_doc : DesignDoc) (file_path : String) (code_info : CodeInfo)
    (rest : List (String × CodeInfo)) (total : Nat)
    (h : S.MAX_TOTAL_TEST_CASES ≤
      (gen_func_loop S llm design_doc code_info.functions total).2) :
    gen_files S llm design_doc ((file_path, code_info) :: rest) total = [] ∧
    (∀ l, (file_path, l) ∉ gen_files S llm design_doc ((file_path, code_info) :: rest) total) ∧
    (gen_func_loop S llm design_doc code_info.functions total).2 =
      total + (gen_func_loop S llm design_doc code_info.functions total).1.length := by
  have h1 : gen_files S llm design_doc ((file_path, code_info) :: rest) total = [] := by
    simp only [gen_files]
    rw [if_pos h]
  refine ⟨h1, ?_, gen_func_loop_sum S llm design_doc code_info.functions total⟩
  intro l hl
  rw [h1] at hl
  exact List.not_mem_nil _ hl

/-- Witness for C10: with a total cap of 1 and no client, one function fills
the cap and the file's entry is dropped. -/
theorem c10_witness :
    gen_files ⟨1, 1, 1⟩ none ⟨[], ""⟩
      [("c.py", ⟨[⟨some "g", none, none, none⟩], []⟩)] 0 = [] ∧
    (∀ l, ("c.py", l) ∉ gen_files ⟨1, 1, 1⟩ none ⟨[], ""⟩
      [("c.py", ⟨[⟨some "g", none, none, none⟩], []⟩)] 0) ∧
    (gen_func_loop ⟨1, 1, 1⟩ none ⟨[], ""⟩
        (⟨[⟨some "g", none, none, none⟩], []⟩ : CodeInfo).functions 0).2 =
      0 + (gen_func_loop ⟨1, 1, 1⟩ none ⟨[], ""⟩
        (⟨[⟨some "g", none, none, none⟩], []⟩ : CodeInfo).functions 0).1.length :=
  c10_file_entry_dropped ⟨1, 1, 1⟩ none ⟨[], ""⟩ "c.py"
    ⟨[⟨some "g", none, none, none⟩], []⟩ [] 0 (by decide)

end Helper
